import Mathlib

/-!
Shallow embedding of the `cloudtasks` package of vvakame/gcpbox
(src/cloudtasks/service.go) and proofs about its task-creation API.

The remote Cloud Tasks client (`s.taskClient.CreateTask`) is external to the
repository; it is modelled as an oracle function from create-requests to
provider results.  Every local computation (resource-name formatting, request
construction, error classification, the fan-out loop) is translated from the
Go source.  Remote calls are made observable by returning, next to the Go
result, the list of requests actually submitted to the client (zero or one
per `CreateTask` invocation).

The concurrent fan-out (`CreateJsonPostTaskMulti` / `CreateGetTaskMulti`)
spawns one goroutine per input item; each goroutine writes a distinct result
slot and error appends are serialized by a mutex, so an execution is
faithfully modelled as a sequential processing of the items in an arbitrary
order (a permutation of the index range), which is made an explicit
parameter.
-/

namespace Tasksbox

/-! ### Go standard-library primitives used by the source -/

/-- Go `time.Time`, reduced to the observations the source makes of it:
its instant as unix seconds plus nanoseconds.  Go's zero `time.Time` is
January 1, year 1, 00:00:00 UTC, i.e. unix second -62135596800. -/
structure GoTime where
  unixSec : Int
  nanos : Int
deriving DecidableEq, Repr

/-- Unix seconds of Go's zero `time.Time` (0001-01-01T00:00:00Z). -/
def goZeroSec : Int := -62135596800

/-- Go `time.Time.IsZero`. -/
def GoTime.IsZero (t : GoTime) : Bool :=
  t.unixSec == goZeroSec && t.nanos == 0

/-- Protobuf `Timestamp`. -/
structure Timestamp where
  seconds : Int
  nanos : Int
deriving DecidableEq, Repr

/-- Upper bound of `ptypes` timestamp validation: 10000-01-01T00:00:00Z. -/
def maxValidSeconds : Int := 253402300800

/-- Go `ptypes.TimestampProto`: converts a `time.Time` to a protobuf
`Timestamp`, failing when the instant lies outside [0001-01-01,
10000-01-01) or the nanosecond part is out of range. -/
def TimestampProto (t : GoTime) : Option Timestamp :=
  if goZeroSec ≤ t.unixSec ∧ t.unixSec < maxValidSeconds
      ∧ 0 ≤ t.nanos ∧ t.nanos < 1000000000 then
    some ⟨t.unixSec, t.nanos⟩
  else
    none

/-- Go `time.Duration`: an integer count of nanoseconds. -/
abbrev GoDuration := Int

/-- Protobuf `Duration`. -/
structure DurationPb where
  seconds : Int
  nanos : Int
deriving DecidableEq, Repr

/-- Go `ptypes.DurationProto`: never fails; splits nanoseconds into
seconds and remaining nanoseconds with truncation toward zero. -/
def DurationProto (d : GoDuration) : DurationPb :=
  ⟨d.tdiv 1000000000, d - d.tdiv 1000000000 * 1000000000⟩

/-! ### taskspb request model -/

/-- Go `taskspb.HttpMethod`. -/
inductive HttpMethod where
  | UNSPECIFIED
  | POST
  | GET
  | HEAD
  | PUT
  | DELETE
  | PATCH
  | OPTIONS
deriving DecidableEq, Repr

/-- Go `taskspb.OidcToken`. -/
structure OidcToken where
  ServiceAccountEmail : String
  Audience : String
deriving DecidableEq, Repr

/-- Go `taskspb.HttpRequest`.  The `Headers` map is modelled as an association
list; `Body` ([]byte) as a string of bytes. -/
structure HttpRequest where
  Url : String
  Headers : List (String × String)
  HttpMethod : HttpMethod
  Body : String
  AuthorizationHeader : Option OidcToken
deriving DecidableEq, Repr

/-- Go `taskspb.Task` restricted to the fields the source reads or writes.
`Name` is a proto string whose unset value is `""`. -/
structure TaskPb where
  Name : String
  HttpRequest : HttpRequest
  ScheduleTime : Option Timestamp
  DispatchDeadline : Option DurationPb
deriving DecidableEq, Repr

/-- Go `taskspb.CreateTaskRequest`. -/
structure CreateTaskRequest where
  Parent : String
  Task : TaskPb
deriving DecidableEq, Repr

/-! ### gRPC status model -/

/-- gRPC status codes; only `AlreadyExists` is inspected by the source. -/
inductive GrpcCode where
  | ok
  | alreadyExists
  | invalidArgument
  | otherCode (n : Nat)
deriving DecidableEq, Repr

/-- An error returned by the provider client: either a gRPC status error
(for which `status.FromError` reports `ok = true`) or a plain error. -/
inductive ClientErr where
  | grpc (code : GrpcCode) (msg : String)
  | plain (msg : String)
deriving DecidableEq, Repr

/-- Go `status.FromError`: recovers the status code of a gRPC status error. -/
def statusFromError : ClientErr → Option GrpcCode
  | .grpc c _ => some c
  | .plain _ => none

/-- Outcome of one remote `CreateTask` call. -/
inductive ProviderResult where
  | ok (task : TaskPb)
  | err (e : ClientErr)

/-! ### Error taxonomy (modelled from the spec) -/

/-- Modelled from the spec: the closed set of codes of the package's
`Error` type (its definition lives outside src/): InvalidArgument,
AlreadyExists, CreateMultiTaskFailure. -/
inductive ErrCode where
  | invalidArgument
  | alreadyExists
  | createMultiTaskFailure
deriving DecidableEq, Repr

/-- A value stored in an error's key-value context
(Go `map[string]interface{}`). -/
inductive KVVal where
  | str (s : String)
  | int (n : Nat)
  | time (t : GoTime)
deriving DecidableEq, Repr

/-- Modelled from the spec: the package's error chain.  `app` is the
package `Error` {Code, Message, KV context, wrapped cause} (its Go
definition lives outside src/); `external` a pass-through provider error;
`wrap` an `xerrors.Errorf("...: %w", inner)` wrapper; `jsonError` an
`encoding/json` marshalling error; `timestampConv` a `ptypes` timestamp
conversion error. -/
inductive TaskError where
  | app (code : ErrCode) (message : String) (kv : List (String × KVVal))
      (cause : Option TaskError)
  | external (e : ClientErr)
  | wrap (msg : String) (inner : TaskError)
  | jsonError (msg : String)
  | timestampConv (msg : String)

/-- Modelled from the spec: `xerrors.As(err, &appErr)` with `appErr` of the
package `Error` type — walks the wrap chain and surfaces the first package
`Error`. -/
def TaskError.asAppError : TaskError → Option TaskError
  | .app c m kv cause => some (.app c m kv cause)
  | .wrap _ inner => inner.asAppError
  | _ => none

/-- The `Code` of an error when it is a package `Error`. -/
def TaskError.appCode : TaskError → Option ErrCode
  | .app c _ _ _ => some c
  | _ => none

/-- The key-value context of an error when it is a package `Error`. -/
def TaskError.appKV : TaskError → List (String × KVVal)
  | .app _ _ kv _ => kv
  | _ => []

/-- The Go-side test `xerrors.As(err, &appErr) && appErr.Code ==
ErrAlreadyExists.Code` used by the fan-out loops. -/
def TaskError.isAlreadyExistsApp (e : TaskError) : Bool :=
  match e.asAppError with
  | some (.app c _ _ _) => c == ErrCode.alreadyExists
  | _ => false

/-- Go map assignment `kv[k] = v` on the association-list model: replace
the binding if the key is present, otherwise add it. -/
def kvSet (kv : List (String × KVVal)) (k : String) (v : KVVal) :
    List (String × KVVal) :=
  if kv.any (fun p => p.1 == k) then
    kv.map (fun p => if p.1 == k then (k, v) else p)
  else
    kv ++ [(k, v)]

/-- Go map lookup `kv[k]`. -/
def kvLookup (kv : List (String × KVVal)) (k : String) : Option KVVal :=
  (kv.find? (fun p => p.1 == k)).map (·.2)

/-- Modelled from the spec: `MultiError`, an ordered collection of
per-item failures (its Go definition lives outside src/). -/
abbrev MultiError := List TaskError

/-- Modelled from the spec: `MultiError.ErrorOrNil()` — `nil` when no
failure was collected, the aggregate itself otherwise. -/
def MultiError.ErrorOrNil (m : MultiError) : Option MultiError :=
  if m.isEmpty then none else some m

/-! ### Options -/

/-- Go `createTaskOptions` (its Go definition lives outside src/; the spec
says the only defined option toggles ignore-already-exists). -/
structure createTaskOptions where
  ignoreAlreadyExists : Bool := false
deriving DecidableEq, Repr

/-- Go `CreateTaskOptions`: a functional option mutating `createTaskOptions`. -/
abbrev CreateTaskOptions := createTaskOptions → createTaskOptions

/-- Modelled from the spec: the one defined option, toggling "ignore
already-exists as success". -/
def IgnoreAlreadyExists : CreateTaskOptions :=
  fun o => { o with ignoreAlreadyExists := true }

/-- The option-application loop at the top of `CreateTask`. -/
def applyOptions (ops : List CreateTaskOptions) : createTaskOptions :=
  ops.foldl (fun acc o => o acc) {}

/-! ### Queue -/

/-- Go `Queue`. -/
structure Queue where
  ProjectID : String
  Region : String
  Name : String
deriving DecidableEq, Repr

/-- Go `Queue.Parent`. -/
def Queue.Parent (q : Queue) : String :=
  "projects/" ++ q.ProjectID ++ "/locations/" ++ q.Region
    ++ "/queues/" ++ q.Name

/-! ### Service and the primitive CreateTask -/

/-- Go `Service`.  `taskClient` is the external Cloud Tasks client, modelled
as an oracle from requests to provider results. -/
structure Service where
  taskClient : CreateTaskRequest → ProviderResult
  serviceAccountEmail : String

/-- The full task resource name `CreateTask` builds when a task name is
supplied. -/
def fullTaskName (queue : Queue) (taskName : String) : String :=
  "projects/" ++ queue.ProjectID ++ "/locations/" ++ queue.Region
    ++ "/queues/" ++ queue.Name ++ "/tasks/" ++ taskName

/-- The `taskspb.CreateTaskRequest` assembled by `CreateTask`: parent from
the queue, task name set only when `taskName` is non-empty, schedule field
as already converted, deadline omitted when zero. -/
def buildTaskRequest (queue : Queue) (taskName : String) (req : HttpRequest)
    (scheduleTime : Option Timestamp) (deadline : GoDuration) :
    CreateTaskRequest where
  Parent := queue.Parent
  Task :=
    { Name := if taskName.length > 0 then fullTaskName queue taskName else ""
      HttpRequest := req
      ScheduleTime := scheduleTime
      DispatchDeadline :=
        if deadline ≠ 0 then some (DurationProto deadline) else none }

/-- The tail of `CreateTask` after the request is assembled: submit it and
classify the provider's answer.  The second component records the requests
submitted to the client. -/
def Service.createTaskSend (s : Service) (opt : createTaskOptions)
    (taskReq : CreateTaskRequest) :
    Except TaskError TaskPb × List CreateTaskRequest :=
  match s.taskClient taskReq with
  | .ok task => (.ok task, [taskReq])
  | .err e =>
    match statusFromError e with
    | some code =>
      if code = GrpcCode.alreadyExists then
        if opt.ignoreAlreadyExists then
          (.ok taskReq.Task, [taskReq])
        else
          (.error (.app ErrCode.alreadyExists
              (taskReq.Task.Name ++ " is already exists.")
              [("taskName", KVVal.str taskReq.Task.Name)]
              (some (.external e))), [taskReq])
      else
        (.error (.external e), [taskReq])
    | none => (.error (.external e), [taskReq])

/-- Go `Service.CreateTask`.  Applies the options, assembles the request
(converting the schedule time unless it is the zero time, in which case the
field is omitted; an unconvertible time yields InvalidArgument before any
remote call), submits it, and maps an AlreadyExists rejection per the
ignore option. -/
def Service.CreateTask (s : Service) (queue : Queue) (taskName : String)
    (req : HttpRequest) (scheduledTime : GoTime) (deadline : GoDuration)
    (ops : List CreateTaskOptions) :
    Except TaskError TaskPb × List CreateTaskRequest :=
  let opt := applyOptions ops
  if scheduledTime.IsZero then
    s.createTaskSend opt (buildTaskRequest queue taskName req none deadline)
  else
    match TimestampProto scheduledTime with
    | none =>
      (.error (.app ErrCode.invalidArgument "invalid ScheduleTime"
          [("ScheduledTime", KVVal.time scheduledTime)]
          (some (.timestampConv "timestamp out of range"))), [])
    | some stpb =>
      s.createTaskSend opt
        (buildTaskRequest queue taskName req (some stpb) deadline)

/-! ### JSON POST tasks -/

/-- A Go `interface{}` handed to `json.Marshal`, reduced to the
observations the source makes of it: either it serializes to some bytes or
marshalling fails. -/
inductive GoValue where
  | jsonable (bytes : String)
  | unjsonable (msg : String)
deriving DecidableEq, Repr

/-- Go `encoding/json.Marshal` on the opaque-value model. -/
def jsonMarshal : GoValue → Except String String
  | .jsonable b => .ok b
  | .unjsonable m => .error m

/-- Go `JsonPostTask`. -/
structure JsonPostTask where
  Audience : String
  RelativeURI : String
  ScheduledTime : GoTime
  Deadline : GoDuration
  Body : GoValue
  Name : String
deriving DecidableEq, Repr

/-- Go `Service.CreateJsonPostTask`: marshal the body, build a POST
`HttpRequest` with a JSON content type and an OIDC token, delegate to
`CreateTask`, and return the created task's name. -/
def Service.CreateJsonPostTask (s : Service) (queue : Queue)
    (task : JsonPostTask) (ops : List CreateTaskOptions) :
    Except TaskError String × List CreateTaskRequest :=
  match jsonMarshal task.Body with
  | .error msg =>
    (.error (.wrap "failed json.Marshal()." (.jsonError msg)), [])
  | .ok body =>
    match s.CreateTask queue task.Name
        { Url := task.RelativeURI
          Headers := [("Content-Type", "application/json")]
          HttpMethod := HttpMethod.POST
          Body := body
          AuthorizationHeader :=
            some ⟨s.serviceAccountEmail, task.Audience⟩ }
        task.ScheduledTime task.Deadline ops with
    | (.error e, trace) =>
      (.error (.wrap "failed CreateJsonPostTask()." e), trace)
    | (.ok got, trace) => (.ok got.Name, trace)

/-! ### GET tasks -/

/-- Go `GetTask`. -/
structure GetTask where
  Audience : String
  Headers : List (String × String)
  RelativeURI : String
  ScheduledTime : GoTime
  Deadline : GoDuration
  Name : String
deriving DecidableEq, Repr

/-- Go `Service.CreateGetTask`: build a GET `HttpRequest` with the caller's
headers and an OIDC token, delegate to `CreateTask`, and return the
created task's name. -/
def Service.CreateGetTask (s : Service) (queue : Queue) (task : GetTask)
    (ops : List CreateTaskOptions) :
    Except TaskError String × List CreateTaskRequest :=
  match s.CreateTask queue task.Name
      { Url := task.RelativeURI
        Headers := task.Headers
        HttpMethod := HttpMethod.GET
        Body := ""
        AuthorizationHeader := some ⟨s.serviceAccountEmail, task.Audience⟩ }
      task.ScheduledTime task.Deadline ops with
  | (.error e, trace) =>
    (.error (.wrap "failed CreateJsonPostTask()." e), trace)
  | (.ok got, trace) => (.ok got.Name, trace)

/-! ### Fan-out multi-create

Both multi variants run the same loop body over their item type; the loop
is defined once, parameterized by the single-create operation and the two
context accessors, and instantiated twice below exactly as the Go code
duplicates it. -/

/-- State of the fan-out: the positional result slice, the error aggregate
(appends are mutex-serialized in Go), and the requests submitted so far. -/
structure MultiState where
  results : List String
  merr : MultiError
  trace : List CreateTaskRequest

/-- Body of one fan-out goroutine for item `i`: run the single create;
on success store the name at slot `i`; on an AlreadyExists failure append
the package error with the index added to its context and return early
(slot untouched); on any other failure append a CreateMultiTaskFailure
error carrying index, task name and URI, then fall through to store the
empty name at slot `i`. -/
def multiStep {α : Type} (single : α → Except TaskError String × List CreateTaskRequest)
    (tName tURI : α → String) (failMsg : String) (tasks : List α)
    (st : MultiState) (i : Nat) : MultiState :=
  match tasks[i]? with
  | none => st
  | some task =>
    let st : MultiState := { st with trace := st.trace ++ (single task).2 }
    match (single task).1 with
    | .ok tn => { st with results := st.results.set i tn }
    | .error err =>
      match err.asAppError with
      | some (.app c m kv cause) =>
        if c = ErrCode.alreadyExists then
          { st with
            merr := st.merr
              ++ [.app c m (kvSet kv "index" (.int i)) cause] }
        else
          { st with
            results := st.results.set i ""
            merr := st.merr
              ++ [.app ErrCode.createMultiTaskFailure failMsg
                  [("index", KVVal.int i), ("taskName", KVVal.str (tName task)),
                   ("URI", KVVal.str (tURI task))] (some err)] }
      | _ =>
        { st with
          results := st.results.set i ""
          merr := st.merr
            ++ [.app ErrCode.createMultiTaskFailure failMsg
                [("index", KVVal.int i), ("taskName", KVVal.str (tName task)),
                 ("URI", KVVal.str (tURI task))] (some err)] }

/-- The whole fan-out: every goroutine runs to completion (the wait group
joins them all); `order` is the order in which the per-item critical
sections take effect. -/
def multiLoop {α : Type} (single : α → Except TaskError String × List CreateTaskRequest)
    (tName tURI : α → String) (failMsg : String) (tasks : List α)
    (order : List Nat) : MultiState :=
  order.foldl (multiStep single tName tURI failMsg tasks)
    ⟨List.replicate tasks.length "", [], []⟩

/-- Go `Service.CreateJsonPostTaskMulti` under completion order `order`. -/
def Service.CreateJsonPostTaskMulti (s : Service) (queue : Queue)
    (tasks : List JsonPostTask) (ops : List CreateTaskOptions)
    (order : List Nat) :
    (List String × Option MultiError) × List CreateTaskRequest :=
  let st := multiLoop (fun t => s.CreateJsonPostTask queue t ops)
    (·.Name) (·.RelativeURI) "failed CreateJsonPostTask" tasks order
  ((st.results, st.merr.ErrorOrNil), st.trace)

/-- Go `Service.CreateGetTaskMulti` under completion order `order`. -/
def Service.CreateGetTaskMulti (s : Service) (queue : Queue)
    (tasks : List GetTask) (ops : List CreateTaskOptions)
    (order : List Nat) :
    (List String × Option MultiError) × List CreateTaskRequest :=
  let st := multiLoop (fun t => s.CreateGetTask queue t ops)
    (·.Name) (·.RelativeURI) "failed CreateGetTask" tasks order
  ((st.results, st.merr.ErrorOrNil), st.trace)

/-! ### Fixtures used by witness theorems -/

/-- The queue of the package's tests. -/
def sampleQueue : Queue := ⟨"sinmetal-ci", "asia-northeast1", "gcpboxtest"⟩

/-- Go's zero `time.Time`. -/
def zeroTime : GoTime := ⟨goZeroSec, 0⟩

/-- A `time.Time` beyond year 9999, unconvertible to a proto timestamp. -/
def farFutureTime : GoTime := ⟨maxValidSeconds, 0⟩

/-- A plain HTTP request payload. -/
def sampleReq : HttpRequest := ⟨"https://example.com/h", [], .GET, "", none⟩

/-- A provider that accepts every request, auto-assigning a name when the
request carries none. -/
def okClient : CreateTaskRequest → ProviderResult := fun r =>
  .ok { r.Task with
        Name := if r.Task.Name = "" then r.Parent ++ "/tasks/auto" else r.Task.Name }

/-- Service backed by the accepting provider. -/
def okService : Service := ⟨okClient, "sa@example.com"⟩

/-- The duplicate rejection a provider answers for a taken task name. -/
def dupErr : ClientErr := .grpc .alreadyExists "entity already exists"

/-- A provider that rejects every request as a duplicate. -/
def dupClient : CreateTaskRequest → ProviderResult := fun _ => .err dupErr

/-- Service backed by the rejecting provider. -/
def dupService : Service := ⟨dupClient, "sa@example.com"⟩

/-! ### Helper lemmas about the primitive create -/

/-- Go `createTaskSend` always submits its request, exactly once. -/
theorem createTaskSend_snd (s : Service) (opt : createTaskOptions)
    (tq : CreateTaskRequest) : (s.createTaskSend opt tq).2 = [tq] := by
  unfold Service.createTaskSend
  repeat' split
  all_goals rfl

/-- Characterization of the requests `CreateTask` submits: exactly one,
built by `buildTaskRequest`, unless the schedule time is unconvertible, in
which case none. -/
theorem createTask_snd_eq (s : Service) (queue : Queue) (taskName : String)
    (req : HttpRequest) (st : GoTime) (dl : GoDuration)
    (ops : List CreateTaskOptions) :
    (s.CreateTask queue taskName req st dl ops).2 =
      if st.IsZero then [buildTaskRequest queue taskName req none dl]
      else
        match TimestampProto st with
        | none => []
        | some ts => [buildTaskRequest queue taskName req (some ts) dl] := by
  unfold Service.CreateTask
  by_cases h : st.IsZero
  · simp [h, createTaskSend_snd]
  · simp only [h, Bool.false_eq_true, if_false]
    cases hc : TimestampProto st with
    | none => simp
    | some ts => simp [createTaskSend_snd]

/-- A non-empty string has positive length. -/
theorem length_pos_of_ne_empty (s : String) (h : s ≠ "") : s.length > 0 := by
  cases s with
  | mk data =>
    cases data with
    | nil => simp at h
    | cons a l => simp [String.length]

/-- Every request `CreateTask` submits is the one assembled by
`buildTaskRequest`, and its schedule field is absent exactly when the
scheduled time is the zero time. -/
theorem createTask_trace_form (s : Service) (queue : Queue)
    (taskName : String) (req : HttpRequest) (st : GoTime) (dl : GoDuration)
    (ops : List CreateTaskOptions) :
    ∀ tr ∈ (s.CreateTask queue taskName req st dl ops).2,
      ∃ sched, tr = buildTaskRequest queue taskName req sched dl ∧
        (sched = none ↔ st.IsZero = true) := by
  intro tr htr
  rw [createTask_snd_eq] at htr
  by_cases hz : st.IsZero
  · simp only [hz, if_true, List.mem_singleton] at htr
    exact ⟨none, htr, by simp [hz]⟩
  · simp only [hz, Bool.false_eq_true, if_false] at htr
    cases hc : TimestampProto st with
    | none => rw [hc] at htr; simp at htr
    | some ts =>
      rw [hc] at htr
      simp only [List.mem_singleton] at htr
      exact ⟨some ts, htr, by simp [hz]⟩

/-- Characterization of the result of `CreateTask`, mirroring
`createTask_snd_eq` on the first component. -/
theorem createTask_fst_eq (s : Service) (queue : Queue) (taskName : String)
    (req : HttpRequest) (st : GoTime) (dl : GoDuration)
    (ops : List CreateTaskOptions) :
    (s.CreateTask queue taskName req st dl ops).1 =
      if st.IsZero then
        (s.createTaskSend (applyOptions ops)
          (buildTaskRequest queue taskName req none dl)).1
      else
        match TimestampProto st with
        | none =>
          .error (.app ErrCode.invalidArgument "invalid ScheduleTime"
            [("ScheduledTime", KVVal.time st)]
            (some (.timestampConv "timestamp out of range")))
        | some ts =>
          (s.createTaskSend (applyOptions ops)
            (buildTaskRequest queue taskName req (some ts) dl)).1 := by
  unfold Service.CreateTask
  by_cases h : st.IsZero
  · simp [h]
  · simp only [h, Bool.false_eq_true, if_false]
    cases hc : TimestampProto st with
    | none => simp
    | some ts => simp

/-- Behaviour of the submission tail when the provider answers an
AlreadyExists rejection: success with the locally built task under the
ignore option, otherwise the AlreadyExists package error naming the task. -/
theorem createTaskSend_already_exists (s : Service) (opt : createTaskOptions)
    (tq : CreateTaskRequest) (e : ClientErr)
    (hcl : s.taskClient tq = .err e)
    (hae : statusFromError e = some GrpcCode.alreadyExists) :
    (opt.ignoreAlreadyExists = true →
      (s.createTaskSend opt tq).1 = .ok tq.Task) ∧
    (opt.ignoreAlreadyExists = false →
      (s.createTaskSend opt tq).1 =
        .error (.app ErrCode.alreadyExists (tq.Task.Name ++ " is already exists.")
          [("taskName", KVVal.str tq.Task.Name)] (some (.external e)))) := by
  unfold Service.createTaskSend
  rw [hcl]
  simp only [hae]
  constructor <;> intro h <;> simp [h]

/-- C9: for every Queue value with project P, region R and name N,
`Parent()` returns exactly `projects/{P}/locations/{R}/queues/{N}`; it is a
total function of the queue value alone (pure, no side effects, no failure
mode). -/
theorem queue_parent_format (P R N : String) :
    (Queue.mk P R N).Parent =
      "projects/" ++ P ++ "/locations/" ++ R ++ "/queues/" ++ N := rfl

/-- C6: every request `CreateTask` submits carries the full resource name
`projects/{PROJECT_ID}/locations/{LOCATION}/queues/{QUEUE_ID}/tasks/{TASK_ID}`
built from the queue and the given task name when that name is non-empty,
and leaves the name unset (the proto zero value) when it is empty. -/
theorem createTask_resource_name (s : Service) (queue : Queue)
    (taskName : String) (req : HttpRequest) (st : GoTime) (dl : GoDuration)
    (ops : List CreateTaskOptions) :
    ∀ tr ∈ (s.CreateTask queue taskName req st dl ops).2,
      (taskName ≠ "" →
        tr.Task.Name =
          "projects/" ++ queue.ProjectID ++ "/locations/" ++ queue.Region
            ++ "/queues/" ++ queue.Name ++ "/tasks/" ++ taskName) ∧
      (taskName = "" → tr.Task.Name = "") := by
  intro tr htr
  obtain ⟨sched, rfl, -⟩ := createTask_trace_form s queue taskName req st dl ops tr htr
  constructor
  · intro hn
    have hl : taskName.length > 0 := length_pos_of_ne_empty taskName hn
    simp [buildTaskRequest, fullTaskName, hl]
  · intro hn
    subst hn
    simp [buildTaskRequest]

/-- C6 witness: with a non-empty task name the submitted request is named
`projects/sinmetal-ci/locations/asia-northeast1/queues/gcpboxtest/tasks/t1`;
with an empty name it is unset. -/
theorem createTask_resource_name_witness :
    (buildTaskRequest sampleQueue "t1" sampleReq none 0
        ∈ (okService.CreateTask sampleQueue "t1" sampleReq zeroTime 0 []).2) ∧
    (buildTaskRequest sampleQueue "t1" sampleReq none 0).Task.Name =
      "projects/sinmetal-ci/locations/asia-northeast1/queues/gcpboxtest/tasks/t1" := by
  refine ⟨by simp [createTask_snd_eq, zeroTime, GoTime.IsZero], ?_⟩
  have h := createTask_resource_name okService sampleQueue "t1" sampleReq
    zeroTime 0 [] (buildTaskRequest sampleQueue "t1" sampleReq none 0)
    (by simp [createTask_snd_eq, zeroTime, GoTime.IsZero])
  exact h.1 (by decide)

/-- C8: every request `CreateTask` submits omits the schedule-time field
exactly when the scheduled time argument is the zero time, and omits the
dispatch-deadline field exactly when the deadline argument is zero. -/
theorem createTask_optional_fields (s : Service) (queue : Queue)
    (taskName : String) (req : HttpRequest) (st : GoTime) (dl : GoDuration)
    (ops : List CreateTaskOptions) :
    ∀ tr ∈ (s.CreateTask queue taskName req st dl ops).2,
      (tr.Task.ScheduleTime = none ↔ st.IsZero = true) ∧
      (tr.Task.DispatchDeadline = none ↔ dl = 0) := by
  intro tr htr
  obtain ⟨sched, rfl, hiff⟩ := createTask_trace_form s queue taskName req st dl ops tr htr
  refine ⟨by simpa [buildTaskRequest] using hiff, ?_⟩
  by_cases hd : dl = 0 <;> simp [buildTaskRequest, hd]

/-- C8 witness: at the zero time and zero deadline the submitted request
has no schedule-time and no dispatch-deadline field. -/
theorem createTask_optional_fields_witness :
    (buildTaskRequest sampleQueue "t1" sampleReq none 0
        ∈ (okService.CreateTask sampleQueue "t1" sampleReq zeroTime 0 []).2) ∧
    (buildTaskRequest sampleQueue "t1" sampleReq none 0).Task.ScheduleTime = none ∧
    (buildTaskRequest sampleQueue "t1" sampleReq none 0).Task.DispatchDeadline = none := by
  have hm : buildTaskRequest sampleQueue "t1" sampleReq none 0
      ∈ (okService.CreateTask sampleQueue "t1" sampleReq zeroTime 0 []).2 := by
    simp [createTask_snd_eq, zeroTime, GoTime.IsZero]
  have h := createTask_optional_fields okService sampleQueue "t1" sampleReq
    zeroTime 0 [] (buildTaskRequest sampleQueue "t1" sampleReq none 0) hm
  exact ⟨hm, h.1.mpr (by decide), h.2.mpr rfl⟩

/-- C5: when the scheduled time is non-zero and its conversion to a proto
timestamp fails, `CreateTask` returns an InvalidArgument error whose
key-value context holds the offending scheduled time, and submits no
request to the provider. -/
theorem createTask_invalid_schedule_time (s : Service) (queue : Queue)
    (taskName : String) (req : HttpRequest) (st : GoTime) (dl : GoDuration)
    (ops : List CreateTaskOptions)
    (hz : st.IsZero = false) (hc : TimestampProto st = none) :
    (∃ msg kv cause,
      (s.CreateTask queue taskName req st dl ops).1 =
        .error (.app ErrCode.invalidArgument msg kv cause) ∧
      kvLookup kv "ScheduledTime" = some (.time st)) ∧
    (s.CreateTask queue taskName req st dl ops).2 = [] := by
  unfold Service.CreateTask
  simp only [hz, Bool.false_eq_true, if_false, hc]
  refine ⟨⟨"invalid ScheduleTime", [("ScheduledTime", KVVal.time st)],
    some (.timestampConv "timestamp out of range"), ?_, ?_⟩, ?_⟩
  · rfl
  · rfl
  · trivial

/-- C5 witness: a time at 10000-01-01 is non-zero and unconvertible, and
`CreateTask` then yields InvalidArgument without any provider call. -/
theorem createTask_invalid_schedule_time_witness :
    farFutureTime.IsZero = false ∧ TimestampProto farFutureTime = none ∧
    ((∃ msg kv cause,
      (okService.CreateTask sampleQueue "t1" sampleReq farFutureTime 0 []).1 =
        .error (.app ErrCode.invalidArgument msg kv cause) ∧
      kvLookup kv "ScheduledTime" = some (.time farFutureTime)) ∧
    (okService.CreateTask sampleQueue "t1" sampleReq farFutureTime 0 []).2 = []) :=
  ⟨by decide, by decide,
    createTask_invalid_schedule_time okService sampleQueue "t1" sampleReq
      farFutureTime 0 [] (by decide) (by decide)⟩

/-- C2: when the provider rejects the submitted create request with an
already-exists status, `CreateTask` returns the locally constructed
(unsent) task with no error if the ignore-already-exists option was
passed, and otherwise an AlreadyExists error whose key-value context maps
"taskName" to the resolved task resource name. -/
theorem createTask_already_exists_behaviour (s : Service) (queue : Queue)
    (taskName : String) (req : HttpRequest) (st : GoTime) (dl : GoDuration)
    (ops : List CreateTaskOptions) (e : ClientErr)
    (hcl : ∀ r, s.taskClient r = .err e)
    (hae : statusFromError e = some GrpcCode.alreadyExists) :
    ∀ tr ∈ (s.CreateTask queue taskName req st dl ops).2,
      ((applyOptions ops).ignoreAlreadyExists = true →
        (s.CreateTask queue taskName req st dl ops).1 = .ok tr.Task) ∧
      ((applyOptions ops).ignoreAlreadyExists = false →
        ∃ m kv cause,
          (s.CreateTask queue taskName req st dl ops).1 =
            .error (.app ErrCode.alreadyExists m kv cause) ∧
          kvLookup kv "taskName" = some (.str tr.Task.Name)) := by
  intro tr htr
  rw [createTask_snd_eq] at htr
  rw [createTask_fst_eq]
  by_cases hz : st.IsZero
  · simp only [hz, if_true, List.mem_singleton] at htr
    subst htr
    simp only [hz, if_true]
    have h := createTaskSend_already_exists s (applyOptions ops)
      (buildTaskRequest queue taskName req none dl) e (hcl _) hae
    refine ⟨h.1, fun hig => ?_⟩
    exact ⟨_, _, _, h.2 hig, rfl⟩
  · simp only [hz, Bool.false_eq_true, if_false] at htr ⊢
    cases hc : TimestampProto st with
    | none => rw [hc] at htr; simp at htr
    | some ts =>
      rw [hc] at htr
      simp only [List.mem_singleton] at htr
      subst htr
      have h := createTaskSend_already_exists s (applyOptions ops)
        (buildTaskRequest queue taskName req (some ts) dl) e (hcl _) hae
      refine ⟨h.1, fun hig => ?_⟩
      exact ⟨_, _, _, h.2 hig, rfl⟩

/-- C2 witness: against a provider that answers already-exists, creating
task name t1 without the ignore option fails with an AlreadyExists error
whose context names the full resource path. -/
theorem createTask_already_exists_behaviour_witness :
    (∀ r, dupService.taskClient r = .err dupErr) ∧
    statusFromError dupErr = some GrpcCode.alreadyExists ∧
    (((applyOptions []).ignoreAlreadyExists = true →
        (dupService.CreateTask sampleQueue "t1" sampleReq zeroTime 0 []).1 =
          .ok (buildTaskRequest sampleQueue "t1" sampleReq none 0).Task) ∧
      ((applyOptions []).ignoreAlreadyExists = false →
        ∃ m kv cause,
          (dupService.CreateTask sampleQueue "t1" sampleReq zeroTime 0 []).1 =
            .error (.app ErrCode.alreadyExists m kv cause) ∧
          kvLookup kv "taskName" =
            some (.str (buildTaskRequest sampleQueue "t1" sampleReq none 0).Task.Name))) :=
  ⟨fun _ => rfl, rfl,
    createTask_already_exists_behaviour dupService sampleQueue "t1" sampleReq
      zeroTime 0 [] dupErr (fun _ => rfl) rfl
      (buildTaskRequest sampleQueue "t1" sampleReq none 0)
      (by simp [createTask_snd_eq, zeroTime, GoTime.IsZero])⟩

/-- C7: when the body marshals successfully, every request
`CreateJsonPostTask` submits is an HTTP task with method POST, the single
header Content-Type: application/json, the JSON serialization of the body
as its body, and an OIDC token built from the service account email and
the task's audience. -/
theorem createJsonPostTask_request_shape (s : Service) (queue : Queue)
    (task : JsonPostTask) (ops : List CreateTaskOptions) (b : String)
    (hm : jsonMarshal task.Body = .ok b) :
    ∀ tr ∈ (s.CreateJsonPostTask queue task ops).2,
      tr.Task.HttpRequest.HttpMethod = HttpMethod.POST ∧
      tr.Task.HttpRequest.Headers = [("Content-Type", "application/json")] ∧
      tr.Task.HttpRequest.Body = b ∧
      tr.Task.HttpRequest.AuthorizationHeader =
        some ⟨s.serviceAccountEmail, task.Audience⟩ := by
  intro tr htr
  unfold Service.CreateJsonPostTask at htr
  rw [hm] at htr
  simp only [] at htr
  cases hct : s.CreateTask queue task.Name
      { Url := task.RelativeURI
        Headers := [("Content-Type", "application/json")]
        HttpMethod := HttpMethod.POST
        Body := b
        AuthorizationHeader := some ⟨s.serviceAccountEmail, task.Audience⟩ }
      task.ScheduledTime task.Deadline ops with
  | mk r trace =>
    rw [hct] at htr
    have htr2 : tr ∈ trace := by
      cases r <;> simpa using htr
    obtain ⟨sched, rfl, -⟩ := createTask_trace_form s queue task.Name _
      task.ScheduledTime task.Deadline ops tr (by rw [hct]; exact htr2)
    simp [buildTaskRequest]

/-- C7 witness: a concrete JSON POST task produces a submitted request
with exactly the claimed method, header, body and OIDC authorization. -/
theorem createJsonPostTask_request_shape_witness :
    jsonMarshal (GoValue.jsonable "42") = .ok "42" ∧
    ∀ tr ∈ (okService.CreateJsonPostTask sampleQueue
        ⟨"aud", "https://example.com/h", zeroTime, 0, .jsonable "42", "t1"⟩ []).2,
      tr.Task.HttpRequest.HttpMethod = HttpMethod.POST ∧
      tr.Task.HttpRequest.Headers = [("Content-Type", "application/json")] ∧
      tr.Task.HttpRequest.Body = "42" ∧
      tr.Task.HttpRequest.AuthorizationHeader =
        some ⟨okService.serviceAccountEmail, "aud"⟩ :=
  ⟨rfl, createJsonPostTask_request_shape okService sampleQueue
    ⟨"aud", "https://example.com/h", zeroTime, 0, .jsonable "42", "t1"⟩ [] "42" rfl⟩

/-- A provider answer carrying an empty task name. -/
def emptyNameTask : TaskPb := ⟨"", sampleReq, none, none⟩

/-- Service whose provider accepts every request but answers a task with an
empty name. -/
def emptyNameService : Service := ⟨fun _ => .ok emptyNameTask, "sa@example.com"⟩

/-- A provider answer carrying a full resource name. -/
def namedTask : TaskPb :=
  ⟨"projects/sinmetal-ci/locations/asia-northeast1/queues/gcpboxtest/tasks/auto",
    sampleReq, none, none⟩

/-- Service whose provider accepts every request and answers a task with a
full resource name, as the real Cloud Tasks service does. -/
def namedService : Service := ⟨fun _ => .ok namedTask, "sa@example.com"⟩

/-- The queue path never empties, whatever the queue and task name. -/
theorem fullTaskName_ne_empty (q : Queue) (tn : String) :
    fullTaskName q tn ≠ "" := by
  intro h
  have hl := congrArg String.length h
  simp only [fullTaskName, String.length_append] at hl
  have h9 : ("projects/" : String).length = 9 := rfl
  have h0 : ("" : String).length = 0 := rfl
  rw [h9, h0] at hl
  omega

/-- C3 counterexample: both success paths can return an empty identifier.
With a provider that rejects as already-exists, the ignore option and an
empty task name, `CreateJsonPostTask` succeeds returning the empty string;
and with a provider that answers a task whose name is empty, `CreateTask`
succeeds with that empty-named task. -/
theorem success_name_nonempty_cex :
    (dupService.CreateJsonPostTask sampleQueue
        ⟨"", "https://example.com/h", zeroTime, 0, .jsonable "42", ""⟩
        [IgnoreAlreadyExists]).1 = .ok "" ∧
    (emptyNameService.CreateTask sampleQueue "t1" sampleReq zeroTime 0 []).1 =
      .ok emptyNameTask ∧
    emptyNameTask.Name = "" := by
  refine ⟨rfl, rfl, rfl⟩

/-- Tail-of-create behaviour backing the amended C3: a success is either
the provider's answer (non-empty by assumption on the provider) or, under
the ignore option, the locally built task, whose name is non-empty as soon
as the request carried one. -/
theorem createTaskSend_ok_name (s : Service) (opt : createTaskOptions)
    (tq : CreateTaskRequest)
    (hclient : ∀ r t, s.taskClient r = .ok t → t.Name ≠ "")
    (hname : tq.Task.Name ≠ "" ∨ opt.ignoreAlreadyExists = false) :
    ∀ t, (s.createTaskSend opt tq).1 = .ok t → t.Name ≠ "" := by
  intro t h
  unfold Service.createTaskSend at h
  cases hc : s.taskClient tq with
  | ok t2 =>
    rw [hc] at h
    simp only [] at h
    cases h
    exact hclient _ _ hc
  | err e =>
    rw [hc] at h
    simp only [] at h
    cases hse : statusFromError e with
    | none => rw [hse] at h; simp only [] at h; cases h
    | some code =>
      rw [hse] at h
      simp only [] at h
      by_cases hcode : code = GrpcCode.alreadyExists
      · rw [if_pos hcode] at h
        by_cases hig : opt.ignoreAlreadyExists
        · rw [if_pos hig] at h
          cases h
          rcases hname with hn | hn
          · exact hn
          · rw [hig] at hn; cases hn
        · rw [if_neg hig] at h
          cases h
      · rw [if_neg hcode] at h
        cases h

/-- C3 amended: provided the provider answers tasks with non-empty names,
and the ignore-already-exists success path is only reached with a
non-empty task name (as holds against the real service, which rejects as
duplicate only named tasks), every successful `CreateTask`,
`CreateJsonPostTask` and `CreateGetTask` returns a non-empty identifier. -/
theorem success_name_nonempty (s : Service) (queue : Queue)
    (hclient : ∀ r t, s.taskClient r = .ok t → t.Name ≠ "") :
    (∀ taskName req st dl ops t,
      (taskName ≠ "" ∨ (applyOptions ops).ignoreAlreadyExists = false) →
      (s.CreateTask queue taskName req st dl ops).1 = .ok t → t.Name ≠ "") ∧
    (∀ (task : JsonPostTask) ops n,
      (task.Name ≠ "" ∨ (applyOptions ops).ignoreAlreadyExists = false) →
      (s.CreateJsonPostTask queue task ops).1 = .ok n → n ≠ "") ∧
    (∀ (task : GetTask) ops n,
      (task.Name ≠ "" ∨ (applyOptions ops).ignoreAlreadyExists = false) →
      (s.CreateGetTask queue task ops).1 = .ok n → n ≠ "") := by
  have hprim : ∀ taskName req st dl ops t,
      (taskName ≠ "" ∨ (applyOptions ops).ignoreAlreadyExists = false) →
      (s.CreateTask queue taskName req st dl ops).1 = .ok t → t.Name ≠ "" := by
    intro taskName req st dl ops t hdisj h
    rw [createTask_fst_eq] at h
    have hsend : ∀ sched,
        (s.createTaskSend (applyOptions ops)
          (buildTaskRequest queue taskName req sched dl)).1 = .ok t →
        t.Name ≠ "" := by
      intro sched hh
      refine createTaskSend_ok_name s (applyOptions ops) _ hclient ?_ t hh
      rcases hdisj with hn | hn
      · left
        have hl : taskName.length > 0 := length_pos_of_ne_empty _ hn
        simp only [buildTaskRequest, hl, if_pos]
        simpa using fullTaskName_ne_empty queue taskName
      · right; exact hn
    by_cases hz : st.IsZero
    · rw [if_pos hz] at h
      exact hsend none h
    · rw [if_neg (by simp [hz])] at h
      cases hc : TimestampProto st with
      | none => rw [hc] at h; cases h
      | some ts => rw [hc] at h; exact hsend (some ts) h
  refine ⟨hprim, ?_, ?_⟩
  · intro task ops n hdisj h
    unfold Service.CreateJsonPostTask at h
    cases hm : jsonMarshal task.Body with
    | error msg => rw [hm] at h; cases h
    | ok body =>
      rw [hm] at h
      simp only [] at h
      cases hct : s.CreateTask queue task.Name
          { Url := task.RelativeURI
            Headers := [("Content-Type", "application/json")]
            HttpMethod := HttpMethod.POST
            Body := body
            AuthorizationHeader := some ⟨s.serviceAccountEmail, task.Audience⟩ }
          task.ScheduledTime task.Deadline ops with
      | mk r trace =>
        rw [hct] at h
        cases r with
        | error e => simp only [] at h; cases h
        | ok got =>
          simp only [] at h
          cases h
          exact hprim task.Name _ task.ScheduledTime task.Deadline ops got hdisj
            (by rw [hct])
  · intro task ops n hdisj h
    unfold Service.CreateGetTask at h
    cases hct : s.CreateTask queue task.Name
        { Url := task.RelativeURI
          Headers := task.Headers
          HttpMethod := HttpMethod.GET
          Body := ""
          AuthorizationHeader := some ⟨s.serviceAccountEmail, task.Audience⟩ }
        task.ScheduledTime task.Deadline ops with
    | mk r trace =>
      rw [hct] at h
      cases r with
      | error e => simp only [] at h; cases h
      | ok got =>
        simp only [] at h
        cases h
        exact hprim task.Name _ task.ScheduledTime task.Deadline ops got hdisj
          (by rw [hct])

/-- C3 amended witness: a well-behaved provider satisfies the hypotheses,
and a named create then never returns an empty identifier. -/
theorem success_name_nonempty_witness :
    (∀ r t, namedService.taskClient r = .ok t → t.Name ≠ "") ∧
    ("t1" ≠ "" ∨ (applyOptions []).ignoreAlreadyExists = false) ∧
    ∀ t, (namedService.CreateTask sampleQueue "t1" sampleReq zeroTime 0 []).1 =
      .ok t → t.Name ≠ "" := by
  have hcl : ∀ r t, namedService.taskClient r = .ok t → t.Name ≠ "" := by
    intro r t h
    injection h with h2
    subst h2
    decide
  exact ⟨hcl, Or.inl (by decide),
    fun t h => (success_name_nonempty namedService sampleQueue hcl).1 "t1"
      sampleReq zeroTime 0 [] t (Or.inl (by decide)) h⟩

/-! ### Lemmas about the fan-out loop -/

section MultiLemmas

variable {α : Type} (single : α → Except TaskError String × List CreateTaskRequest)
variable (tName tURI : α → String) (failMsg : String) (tasks : List α)

/-- The error, if any, the loop body appends for item `i` (a read-off of
the error branch of `multiStep`). -/
def itemErr (i : Nat) : Option TaskError :=
  match tasks[i]? with
  | none => none
  | some task =>
    match (single task).1 with
    | .ok _ => none
    | .error err =>
      match err.asAppError with
      | some (.app c m kv cause) =>
        if c = ErrCode.alreadyExists then
          some (.app c m (kvSet kv "index" (.int i)) cause)
        else
          some (.app ErrCode.createMultiTaskFailure failMsg
            [("index", KVVal.int i), ("taskName", KVVal.str (tName task)),
             ("URI", KVVal.str (tURI task))] (some err))
      | _ =>
        some (.app ErrCode.createMultiTaskFailure failMsg
          [("index", KVVal.int i), ("taskName", KVVal.str (tName task)),
           ("URI", KVVal.str (tURI task))] (some err))

/-- The value slot `i` holds once item `i` has been processed: the name on
success, the empty string on failure. -/
def expectedSlot (i : Nat) : String :=
  match tasks[i]? with
  | none => ""
  | some task =>
    match (single task).1 with
    | .ok tn => tn
    | .error _ => ""

theorem multiStep_results_length (st : MultiState) (i : Nat) :
    (multiStep single tName tURI failMsg tasks st i).results.length =
      st.results.length := by
  cases ht : tasks[i]? with
  | none => simp [multiStep, ht]
  | some task =>
    cases hr : (single task).1 with
    | ok tn => simp [multiStep, ht, hr]
    | error err =>
      cases has : err.asAppError with
      | none => simp [multiStep, ht, hr, has]
      | some ae =>
        cases ae with
        | app c m kv cause =>
          by_cases hc : c = ErrCode.alreadyExists <;>
            simp [multiStep, ht, hr, has, hc]
        | external e => simp [multiStep, ht, hr, has]
        | wrap m inner => simp [multiStep, ht, hr, has]
        | jsonError m => simp [multiStep, ht, hr, has]
        | timestampConv m => simp [multiStep, ht, hr, has]

theorem multiStep_merr (st : MultiState) (i : Nat) :
    (multiStep single tName tURI failMsg tasks st i).merr =
      st.merr ++ (itemErr single tName tURI failMsg tasks i).toList := by
  cases ht : tasks[i]? with
  | none => simp [multiStep, itemErr, ht]
  | some task =>
    cases hr : (single task).1 with
    | ok tn => simp [multiStep, itemErr, ht, hr]
    | error err =>
      cases has : err.asAppError with
      | none => simp [multiStep, itemErr, ht, hr, has]
      | some ae =>
        cases ae with
        | app c m kv cause =>
          by_cases hc : c = ErrCode.alreadyExists <;>
            simp [multiStep, itemErr, ht, hr, has, hc]
        | external e => simp [multiStep, itemErr, ht, hr, has]
        | wrap m inner => simp [multiStep, itemErr, ht, hr, has]
        | jsonError m => simp [multiStep, itemErr, ht, hr, has]
        | timestampConv m => simp [multiStep, itemErr, ht, hr, has]

theorem multiStep_results_of_ne (st : MultiState) (i j : Nat) (hne : j ≠ i) :
    (multiStep single tName tURI failMsg tasks st j).results[i]? =
      st.results[i]? := by
  cases ht : tasks[j]? with
  | none => simp [multiStep, ht]
  | some task =>
    cases hr : (single task).1 with
    | ok tn => simp [multiStep, ht, hr, List.getElem?_set_ne hne]
    | error err =>
      cases has : err.asAppError with
      | none => simp [multiStep, ht, hr, has, List.getElem?_set_ne hne]
      | some ae =>
        cases ae with
        | app c m kv cause =>
          by_cases hc : c = ErrCode.alreadyExists <;>
            simp [multiStep, ht, hr, has, hc, List.getElem?_set_ne hne]
        | external e => simp [multiStep, ht, hr, has, List.getElem?_set_ne hne]
        | wrap m inner => simp [multiStep, ht, hr, has, List.getElem?_set_ne hne]
        | jsonError m => simp [multiStep, ht, hr, has, List.getElem?_set_ne hne]
        | timestampConv m => simp [multiStep, ht, hr, has, List.getElem?_set_ne hne]

theorem multiStep_results_self (st : MultiState) (i : Nat)
    (hlen : st.results.length = tasks.length) (hi : i < tasks.length)
    (hprev : st.results[i]? = some "" ∨
      st.results[i]? = some (expectedSlot single tasks i)) :
    (multiStep single tName tURI failMsg tasks st i).results[i]? =
      some (expectedSlot single tasks i) := by
  have hi2 : i < st.results.length := by rw [hlen]; exact hi
  have ht : tasks[i]? = some tasks[i] := List.getElem?_eq_getElem hi
  cases hr : (single tasks[i]).1 with
  | ok tn =>
    have hexp : expectedSlot single tasks i = tn := by
      simp [expectedSlot, ht, hr]
    rw [hexp]
    simp [multiStep, ht, hr, List.getElem?_set_self hi2]
  | error err =>
    have hexp : expectedSlot single tasks i = "" := by
      simp [expectedSlot, ht, hr]
    rw [hexp]
    cases has : err.asAppError with
    | none => simp [multiStep, ht, hr, has, List.getElem?_set_self hi2]
    | some ae =>
      cases ae with
      | app c m kv cause =>
        by_cases hc : c = ErrCode.alreadyExists
        · have : (multiStep single tName tURI failMsg tasks st i).results =
              st.results := by
            simp [multiStep, ht, hr, has, hc]
          rw [this]
          rcases hprev with hp | hp
          · exact hp
          · rw [hexp] at hp; exact hp
        · simp [multiStep, ht, hr, has, hc, List.getElem?_set_self hi2]
      | external e => simp [multiStep, ht, hr, has, List.getElem?_set_self hi2]
      | wrap m inner => simp [multiStep, ht, hr, has, List.getElem?_set_self hi2]
      | jsonError m => simp [multiStep, ht, hr, has, List.getElem?_set_self hi2]
      | timestampConv m => simp [multiStep, ht, hr, has, List.getElem?_set_self hi2]

theorem multiFold_results_length (st : MultiState) (order : List Nat) :
    (order.foldl (multiStep single tName tURI failMsg tasks) st).results.length =
      st.results.length := by
  induction order generalizing st with
  | nil => rfl
  | cons j rest ih =>
    rw [List.foldl_cons, ih, multiStep_results_length]

theorem multiFold_merr (st : MultiState) (order : List Nat) :
    (order.foldl (multiStep single tName tURI failMsg tasks) st).merr =
      st.merr ++ order.filterMap (itemErr single tName tURI failMsg tasks) := by
  induction order generalizing st with
  | nil => simp
  | cons j rest ih =>
    rw [List.foldl_cons, ih, multiStep_merr]
    cases hj : itemErr single tName tURI failMsg tasks j <;>
      simp [hj, List.filterMap_cons]

theorem multiFold_results_of_not_mem (st : MultiState) (order : List Nat)
    (i : Nat) (h : i ∉ order) :
    (order.foldl (multiStep single tName tURI failMsg tasks) st).results[i]? =
      st.results[i]? := by
  induction order generalizing st with
  | nil => rfl
  | cons j rest ih =>
    have hji : j ≠ i := fun hh => h (hh ▸ List.mem_cons_self j rest)
    have hrest : i ∉ rest := fun hh => h (List.mem_cons_of_mem j hh)
    rw [List.foldl_cons, ih _ hrest, multiStep_results_of_ne _ _ _ _ _ _ _ _ hji]

theorem multiFold_slot (st : MultiState) (order : List Nat) (i : Nat)
    (hlen : st.results.length = tasks.length)
    (hinv : ∀ k, k < tasks.length →
      st.results[k]? = some "" ∨
        st.results[k]? = some (expectedSlot single tasks k))
    (hi : i < tasks.length) (hmem : i ∈ order) :
    (order.foldl (multiStep single tName tURI failMsg tasks) st).results[i]? =
      some (expectedSlot single tasks i) := by
  induction order generalizing st with
  | nil => cases hmem
  | cons j rest ih =>
    have hlen2 : (multiStep single tName tURI failMsg tasks st j).results.length =
        tasks.length := by
      rw [multiStep_results_length]; exact hlen
    have hinv2 : ∀ k, k < tasks.length →
        (multiStep single tName tURI failMsg tasks st j).results[k]? = some "" ∨
        (multiStep single tName tURI failMsg tasks st j).results[k]? =
          some (expectedSlot single tasks k) := by
      intro k hk
      by_cases hjk : j = k
      · subst hjk
        right
        exact multiStep_results_self single tName tURI failMsg tasks st j hlen hk
          (hinv j hk)
      · rw [multiStep_results_of_ne _ _ _ _ _ _ _ _ hjk]
        exact hinv k hk
    by_cases hrest : i ∈ rest
    · rw [List.foldl_cons]
      exact ih _ hlen2 hinv2 hrest
    · have hij : i = j := by
        rcases List.mem_cons.mp hmem with h | h
        · exact h
        · exact absurd h hrest
      subst hij
      rw [List.foldl_cons, multiFold_results_of_not_mem _ _ _ _ _ _ _ _ hrest]
      exact multiStep_results_self single tName tURI failMsg tasks st i hlen hi
        (hinv i hi)

theorem itemErr_eq_none_iff (i : Nat) (hi : i < tasks.length) :
    itemErr single tName tURI failMsg tasks i = none ↔
      ∃ tn, (single tasks[i]).1 = .ok tn := by
  have ht : tasks[i]? = some tasks[i] := List.getElem?_eq_getElem hi
  cases hr : (single tasks[i]).1 with
  | ok tn => simp [itemErr, ht, hr]
  | error err =>
    cases has : err.asAppError with
    | none => simp [itemErr, ht, hr, has]
    | some ae =>
      cases ae with
      | app c m kv cause =>
        by_cases hc : c = ErrCode.alreadyExists <;>
          simp [itemErr, ht, hr, has, hc]
      | external e => simp [itemErr, ht, hr, has]
      | wrap m inner => simp [itemErr, ht, hr, has]
      | jsonError m => simp [itemErr, ht, hr, has]
      | timestampConv m => simp [itemErr, ht, hr, has]

/-- Summary of one fan-out execution under any completion order that is a
permutation of the index range: the result slice keeps its length, each
slot holds the outcome of its own item's single create, and the aggregate
is empty exactly when every item succeeded. -/
theorem multiLoop_spec (order : List Nat)
    (hperm : order.Perm (List.range tasks.length)) :
    (multiLoop single tName tURI failMsg tasks order).results.length =
      tasks.length ∧
    (∀ i, i < tasks.length →
      (multiLoop single tName tURI failMsg tasks order).results[i]? =
        some (expectedSlot single tasks i)) ∧
    ((multiLoop single tName tURI failMsg tasks order).merr = [] ↔
      ∀ i (h : i < tasks.length), ∃ tn, (single tasks[i]).1 = .ok tn) := by
  have hmemiff : ∀ i, i ∈ order ↔ i < tasks.length := by
    intro i
    rw [hperm.mem_iff, List.mem_range]
  refine ⟨?_, ?_, ?_⟩
  · unfold multiLoop
    rw [multiFold_results_length]
    exact List.length_replicate _ _
  · intro i hi
    unfold multiLoop
    refine multiFold_slot single tName tURI failMsg tasks _ order i
      (List.length_replicate _ _) ?_ hi ((hmemiff i).mpr hi)
    intro k hk
    left
    exact List.getElem?_replicate_of_lt hk
  · unfold multiLoop
    rw [multiFold_merr]
    simp only [List.nil_append]
    rw [List.filterMap_eq_nil_iff]
    constructor
    · intro h i hi
      exact (itemErr_eq_none_iff single tName tURI failMsg tasks i hi).mp
        (h i ((hmemiff i).mpr hi))
    · intro h j hj
      have hjlt : j < tasks.length := (hmemiff j).mp hj
      exact (itemErr_eq_none_iff single tName tURI failMsg tasks j hjlt).mpr
        (h j hjlt)

end MultiLemmas

/-! ### Lemmas about the key-value context -/

theorem find?_map_replace (kv : List (String × KVVal)) (k : String) (v : KVVal)
    (h : kv.any (fun p => p.1 == k) = true) :
    (kv.map (fun p => if p.1 == k then (k, v) else p)).find?
      (fun p => p.1 == k) = some (k, v) := by
  induction kv with
  | nil => simp at h
  | cons p t ih =>
    simp only [List.map_cons]
    by_cases hp : (p.1 == k) = true
    · rw [if_pos hp]
      exact List.find?_cons_of_pos _ (by simp)
    · rw [if_neg (by simp [hp])]
      have ht : t.any (fun p => p.1 == k) = true := by
        simp only [List.any_cons, hp, Bool.false_or] at h
        exact h
      rw [List.find?_cons_of_neg _ (by simp [hp]), ih ht]

theorem find?_append_missing (kv : List (String × KVVal)) (k : String) (v : KVVal)
    (h : kv.any (fun p => p.1 == k) = false) :
    (kv ++ [(k, v)]).find? (fun p => p.1 == k) = some (k, v) := by
  induction kv with
  | nil => exact List.find?_cons_of_pos _ (by simp)
  | cons p t ih =>
    simp only [List.any_cons, Bool.or_eq_false_iff] at h
    rw [List.cons_append, List.find?_cons_of_neg _ (by simp [h.1]), ih h.2]

/-- Go map assignment followed by lookup of the same key yields the
assigned value. -/
theorem kvLookup_kvSet_self (kv : List (String × KVVal)) (k : String)
    (v : KVVal) : kvLookup (kvSet kv k v) k = some v := by
  unfold kvSet kvLookup
  by_cases h : kv.any (fun p => p.1 == k) = true
  · rw [if_pos h, find?_map_replace kv k v h]
    rfl
  · have h2 : kv.any (fun p => p.1 == k) = false := by
      cases hb : kv.any (fun p => p.1 == k)
      · rfl
      · exact absurd hb h
    rw [if_neg h, find?_append_missing kv k v h2]
    rfl

/-! ### Remaining fan-out lemmas -/

theorem errorOrNil_eq_none_iff (m : MultiError) :
    MultiError.ErrorOrNil m = none ↔ m = [] := by
  unfold MultiError.ErrorOrNil
  by_cases h : m.isEmpty
  · simp [h, List.isEmpty_iff.mp h]
  · rw [if_neg h]
    constructor
    · intro hx
      exact absurd hx (Option.some_ne_none m)
    · intro hm
      subst hm
      simp at h

theorem errorOrNil_eq_some (m l : MultiError)
    (h : MultiError.ErrorOrNil m = some l) : l = m := by
  unfold MultiError.ErrorOrNil at h
  by_cases he : m.isEmpty
  · rw [if_pos he] at h
    cases h
  · rw [if_neg he] at h
    exact (Option.some_inj.mp h).symm

theorem multiLoop_merr_eq {α : Type}
    (single : α → Except TaskError String × List CreateTaskRequest)
    (tName tURI : α → String) (failMsg : String) (tasks : List α)
    (order : List Nat) :
    (multiLoop single tName tURI failMsg tasks order).merr =
      order.filterMap (itemErr single tName tURI failMsg tasks) := by
  unfold multiLoop
  rw [multiFold_merr]
  rfl

/-- Shape of every error the loop appends for item `i`: it comes from a
failed single create; it is a package error carrying the index; it keeps
the AlreadyExists code when the failure was an already-exists one, and is
otherwise a CreateMultiTaskFailure carrying index, task name and URI. -/
theorem itemErr_shape {α : Type}
    (single : α → Except TaskError String × List CreateTaskRequest)
    (tName tURI : α → String) (failMsg : String) (tasks : List α)
    (i : Nat) (e : TaskError) (hi : i < tasks.length)
    (h : itemErr single tName tURI failMsg tasks i = some e) :
    ∃ err, (single tasks[i]).1 = .error err ∧
      kvLookup e.appKV "index" = some (.int i) ∧
      (err.isAlreadyExistsApp = true → e.appCode = some ErrCode.alreadyExists) ∧
      (err.isAlreadyExistsApp = false →
        e.appCode = some ErrCode.createMultiTaskFailure ∧
        kvLookup e.appKV "taskName" = some (.str (tName tasks[i])) ∧
        kvLookup e.appKV "URI" = some (.str (tURI tasks[i]))) := by
  have ht : tasks[i]? = some tasks[i] := List.getElem?_eq_getElem hi
  unfold itemErr at h
  rw [ht] at h
  simp only [] at h
  cases hr : (single tasks[i]).1 with
  | ok tn => rw [hr] at h; simp at h
  | error err =>
    rw [hr] at h
    simp only [] at h
    refine ⟨err, rfl, ?_⟩
    cases has : err.asAppError with
    | none =>
      rw [has] at h
      simp only [] at h
      have hfalse : err.isAlreadyExistsApp = false := by
        simp [TaskError.isAlreadyExistsApp, has]
      obtain rfl := Option.some_inj.mp h
      refine ⟨rfl, ?_, ?_⟩
      · intro ht2; rw [hfalse] at ht2; cases ht2
      · intro hf2; exact ⟨rfl, rfl, rfl⟩
    | some ae =>
      cases ae with
      | app c m kv cause =>
        rw [has] at h
        simp only [] at h
        by_cases hc : c = ErrCode.alreadyExists
        · rw [if_pos hc] at h
          have htrue : err.isAlreadyExistsApp = true := by
            simp [TaskError.isAlreadyExistsApp, has, hc]
          obtain rfl := Option.some_inj.mp h
          refine ⟨?_, ?_, ?_⟩
          · exact kvLookup_kvSet_self kv "index" (.int i)
          · intro ht2
            simp [TaskError.appCode, hc]
          · intro hf2; rw [htrue] at hf2; cases hf2
        · rw [if_neg hc] at h
          have hfalse : err.isAlreadyExistsApp = false := by
            simp [TaskError.isAlreadyExistsApp, has]
            exact hc
          obtain rfl := Option.some_inj.mp h
          refine ⟨rfl, ?_, ?_⟩
          · intro ht2; rw [hfalse] at ht2; cases ht2
          · intro hf2; exact ⟨rfl, rfl, rfl⟩
      | external e2 =>
        rw [has] at h
        simp only [] at h
        have hfalse : err.isAlreadyExistsApp = false := by
          simp [TaskError.isAlreadyExistsApp, has]
        obtain rfl := Option.some_inj.mp h
        refine ⟨rfl, ?_, ?_⟩
        · intro ht2; rw [hfalse] at ht2; cases ht2
        · intro hf2; exact ⟨rfl, rfl, rfl⟩
      | wrap m2 inner =>
        rw [has] at h
        simp only [] at h
        have hfalse : err.isAlreadyExistsApp = false := by
          simp [TaskError.isAlreadyExistsApp, has]
        obtain rfl := Option.some_inj.mp h
        refine ⟨rfl, ?_, ?_⟩
        · intro ht2; rw [hfalse] at ht2; cases ht2
        · intro hf2; exact ⟨rfl, rfl, rfl⟩
      | jsonError m2 =>
        rw [has] at h
        simp only [] at h
        have hfalse : err.isAlreadyExistsApp = false := by
          simp [TaskError.isAlreadyExistsApp, has]
        obtain rfl := Option.some_inj.mp h
        refine ⟨rfl, ?_, ?_⟩
        · intro ht2; rw [hfalse] at ht2; cases ht2
        · intro hf2; exact ⟨rfl, rfl, rfl⟩
      | timestampConv m2 =>
        rw [has] at h
        simp only [] at h
        have hfalse : err.isAlreadyExistsApp = false := by
          simp [TaskError.isAlreadyExistsApp, has]
        obtain rfl := Option.some_inj.mp h
        refine ⟨rfl, ?_, ?_⟩
        · intro ht2; rw [hfalse] at ht2; cases ht2
        · intro hf2; exact ⟨rfl, rfl, rfl⟩

/-- Definitional expansion of the JSON multi create. -/
theorem createJsonPostTaskMulti_eq (s : Service) (queue : Queue)
    (tasks : List JsonPostTask) (ops : List CreateTaskOptions)
    (order : List Nat) :
    s.CreateJsonPostTaskMulti queue tasks ops order =
      (((multiLoop (fun t => s.CreateJsonPostTask queue t ops)
          (·.Name) (·.RelativeURI) "failed CreateJsonPostTask" tasks
          order).results,
        (multiLoop (fun t => s.CreateJsonPostTask queue t ops)
          (·.Name) (·.RelativeURI) "failed CreateJsonPostTask" tasks
          order).merr.ErrorOrNil),
        (multiLoop (fun t => s.CreateJsonPostTask queue t ops)
          (·.Name) (·.RelativeURI) "failed CreateJsonPostTask" tasks
          order).trace) := rfl

/-- Definitional expansion of the GET multi create. -/
theorem createGetTaskMulti_eq (s : Service) (queue : Queue)
    (tasks : List GetTask) (ops : List CreateTaskOptions)
    (order : List Nat) :
    s.CreateGetTaskMulti queue tasks ops order =
      (((multiLoop (fun t => s.CreateGetTask queue t ops)
          (·.Name) (·.RelativeURI) "failed CreateGetTask" tasks
          order).results,
        (multiLoop (fun t => s.CreateGetTask queue t ops)
          (·.Name) (·.RelativeURI) "failed CreateGetTask" tasks
          order).merr.ErrorOrNil),
        (multiLoop (fun t => s.CreateGetTask queue t ops)
          (·.Name) (·.RelativeURI) "failed CreateGetTask" tasks
          order).trace) := rfl

/-! ### The multi-create claims -/

/-- C1: under any completion order, both multi creates return one slot per
input where slot i holds the name produced by the single create of input
i, the empty string where that creation failed, and a nil aggregate error
exactly when no per-item creation failed. -/
theorem multi_positional_results (s : Service) (queue : Queue)
    (ops : List CreateTaskOptions) :
    (∀ (tasks : List JsonPostTask) (order : List Nat),
      order.Perm (List.range tasks.length) →
      (s.CreateJsonPostTaskMulti queue tasks ops order).1.1.length =
        tasks.length ∧
      (∀ i (hi : i < tasks.length),
        (∀ tn, (s.CreateJsonPostTask queue tasks[i] ops).1 = .ok tn →
          (s.CreateJsonPostTaskMulti queue tasks ops order).1.1[i]? = some tn) ∧
        (∀ e, (s.CreateJsonPostTask queue tasks[i] ops).1 = .error e →
          (s.CreateJsonPostTaskMulti queue tasks ops order).1.1[i]? = some "")) ∧
      ((s.CreateJsonPostTaskMulti queue tasks ops order).1.2 = none ↔
        ∀ i (hi : i < tasks.length),
          ∃ tn, (s.CreateJsonPostTask queue tasks[i] ops).1 = .ok tn)) ∧
    (∀ (tasks : List GetTask) (order : List Nat),
      order.Perm (List.range tasks.length) →
      (s.CreateGetTaskMulti queue tasks ops order).1.1.length =
        tasks.length ∧
      (∀ i (hi : i < tasks.length),
        (∀ tn, (s.CreateGetTask queue tasks[i] ops).1 = .ok tn →
          (s.CreateGetTaskMulti queue tasks ops order).1.1[i]? = some tn) ∧
        (∀ e, (s.CreateGetTask queue tasks[i] ops).1 = .error e →
          (s.CreateGetTaskMulti queue tasks ops order).1.1[i]? = some "")) ∧
      ((s.CreateGetTaskMulti queue tasks ops order).1.2 = none ↔
        ∀ i (hi : i < tasks.length),
          ∃ tn, (s.CreateGetTask queue tasks[i] ops).1 = .ok tn)) := by
  constructor
  · intro tasks order hperm
    obtain ⟨hlen, hslot, herr⟩ := multiLoop_spec
      (fun t => s.CreateJsonPostTask queue t ops) (·.Name) (·.RelativeURI)
      "failed CreateJsonPostTask" tasks order hperm
    rw [createJsonPostTaskMulti_eq]
    refine ⟨hlen, ?_, ?_⟩
    · intro i hi
      constructor
      · intro tn htn
        have hexp : expectedSlot (fun t => s.CreateJsonPostTask queue t ops)
            tasks i = tn := by
          simp [expectedSlot, List.getElem?_eq_getElem hi, htn]
        rw [← hexp]
        exact hslot i hi
      · intro e he
        have hexp : expectedSlot (fun t => s.CreateJsonPostTask queue t ops)
            tasks i = "" := by
          simp [expectedSlot, List.getElem?_eq_getElem hi, he]
        rw [← hexp]
        exact hslot i hi
    · rw [errorOrNil_eq_none_iff]
      exact herr
  · intro tasks order hperm
    obtain ⟨hlen, hslot, herr⟩ := multiLoop_spec
      (fun t => s.CreateGetTask queue t ops) (·.Name) (·.RelativeURI)
      "failed CreateGetTask" tasks order hperm
    rw [createGetTaskMulti_eq]
    refine ⟨hlen, ?_, ?_⟩
    · intro i hi
      constructor
      · intro tn htn
        have hexp : expectedSlot (fun t => s.CreateGetTask queue t ops)
            tasks i = tn := by
          simp [expectedSlot, List.getElem?_eq_getElem hi, htn]
        rw [← hexp]
        exact hslot i hi
      · intro e he
        have hexp : expectedSlot (fun t => s.CreateGetTask queue t ops)
            tasks i = "" := by
          simp [expectedSlot, List.getElem?_eq_getElem hi, he]
        rw [← hexp]
        exact hslot i hi
    · rw [errorOrNil_eq_none_iff]
      exact herr

/-- C4: every error in the aggregate of either multi create stems from a
failed single create at some input position i; it is a package error whose
context carries that index; when the failure was classified already-exists
the aggregate entry keeps the AlreadyExists code, and otherwise it is a
CreateMultiTaskFailure whose context carries index, task name and URI. -/
theorem multi_error_classification (s : Service) (queue : Queue)
    (ops : List CreateTaskOptions) :
    (∀ (tasks : List JsonPostTask) (order : List Nat),
      order.Perm (List.range tasks.length) →
      ∀ l, (s.CreateJsonPostTaskMulti queue tasks ops order).1.2 = some l →
      ∀ e ∈ l, ∃ i task err, i < tasks.length ∧ tasks[i]? = some task ∧
        (s.CreateJsonPostTask queue task ops).1 = .error err ∧
        kvLookup e.appKV "index" = some (.int i) ∧
        (err.isAlreadyExistsApp = true →
          e.appCode = some ErrCode.alreadyExists) ∧
        (err.isAlreadyExistsApp = false →
          e.appCode = some ErrCode.createMultiTaskFailure ∧
          kvLookup e.appKV "taskName" = some (.str task.Name) ∧
          kvLookup e.appKV "URI" = some (.str task.RelativeURI))) ∧
    (∀ (tasks : List GetTask) (order : List Nat),
      order.Perm (List.range tasks.length) →
      ∀ l, (s.CreateGetTaskMulti queue tasks ops order).1.2 = some l →
      ∀ e ∈ l, ∃ i task err, i < tasks.length ∧ tasks[i]? = some task ∧
        (s.CreateGetTask queue task ops).1 = .error err ∧
        kvLookup e.appKV "index" = some (.int i) ∧
        (err.isAlreadyExistsApp = true →
          e.appCode = some ErrCode.alreadyExists) ∧
        (err.isAlreadyExistsApp = false →
          e.appCode = some ErrCode.createMultiTaskFailure ∧
          kvLookup e.appKV "taskName" = some (.str task.Name) ∧
          kvLookup e.appKV "URI" = some (.str task.RelativeURI))) := by
  constructor
  · intro tasks order hperm l hl e he
    rw [createJsonPostTaskMulti_eq] at hl
    have hlm := errorOrNil_eq_some _ _ hl
    rw [multiLoop_merr_eq] at hlm
    subst hlm
    obtain ⟨j, hj, hje⟩ := List.mem_filterMap.mp he
    have hjlt : j < tasks.length := by
      have := hperm.mem_iff.mp hj
      simpa [List.mem_range] using this
    obtain ⟨err, herr, hidx, htrue, hfalse⟩ := itemErr_shape
      (fun t => s.CreateJsonPostTask queue t ops) (·.Name) (·.RelativeURI)
      "failed CreateJsonPostTask" tasks j e hjlt hje
    exact ⟨j, tasks[j], err, hjlt, List.getElem?_eq_getElem hjlt, herr,
      hidx, htrue, hfalse⟩
  · intro tasks order hperm l hl e he
    rw [createGetTaskMulti_eq] at hl
    have hlm := errorOrNil_eq_some _ _ hl
    rw [multiLoop_merr_eq] at hlm
    subst hlm
    obtain ⟨j, hj, hje⟩ := List.mem_filterMap.mp he
    have hjlt : j < tasks.length := by
      have := hperm.mem_iff.mp hj
      simpa [List.mem_range] using this
    obtain ⟨err, herr, hidx, htrue, hfalse⟩ := itemErr_shape
      (fun t => s.CreateGetTask queue t ops) (·.Name) (·.RelativeURI)
      "failed CreateGetTask" tasks j e hjlt hje
    exact ⟨j, tasks[j], err, hjlt, List.getElem?_eq_getElem hjlt, herr,
      hidx, htrue, hfalse⟩

/-- C10: on an empty input both multi creates return an empty result
slice, a nil aggregate error, and submit no request to the provider. -/
theorem multi_empty_input (s : Service) (queue : Queue)
    (ops : List CreateTaskOptions) (order : List Nat)
    (hperm : order.Perm (List.range 0)) :
    s.CreateJsonPostTaskMulti queue [] ops order = (([], none), []) ∧
    s.CreateGetTaskMulti queue [] ops order = (([], none), []) := by
  have ho : order = [] := by simpa using hperm.eq_nil
  subst ho
  exact ⟨rfl, rfl⟩

/-! ### Fixtures and witnesses for the multi-create claims -/

/-- A concrete JSON POST task named a. -/
def jtask0 : JsonPostTask :=
  ⟨"aud", "https://example.com/h", zeroTime, 0, .jsonable "42", "a"⟩

/-- A concrete JSON POST task named b. -/
def jtask1 : JsonPostTask :=
  ⟨"aud", "https://example.com/h", zeroTime, 0, .jsonable "42", "b"⟩

/-- A concrete GET task named g. -/
def gtask0 : GetTask :=
  ⟨"aud", [], "https://example.com/h", zeroTime, 0, "g"⟩

/-- Service whose provider fails every request with a non-status error. -/
def plainErrService : Service := ⟨fun _ => .err (.plain "boom"), "sa@example.com"⟩

/-- The aggregate entry the JSON multi create records for item 0 when its
provider call fails with a plain error. -/
def genMultiErr : TaskError :=
  .app .createMultiTaskFailure "failed CreateJsonPostTask"
    [("index", .int 0), ("taskName", .str "a"), ("URI", .str "https://example.com/h")]
    (some (.wrap "failed CreateJsonPostTask()." (.external (.plain "boom"))))

/-- C1 witness: a two-item JSON batch processed in reversed completion
order still yields one slot per input, and an all-success one-item GET
batch yields one slot. -/
theorem multi_positional_results_witness :
    ([1, 0] : List Nat).Perm (List.range 2) ∧
    (okService.CreateJsonPostTaskMulti sampleQueue [jtask0, jtask1] []
      [1, 0]).1.1.length = 2 ∧
    (okService.CreateGetTaskMulti sampleQueue [gtask0] [] [0]).1.1.length = 1 := by
  have h1 := ((multi_positional_results okService sampleQueue []).1
    [jtask0, jtask1] [1, 0] (by decide)).1
  have h2 := ((multi_positional_results okService sampleQueue []).2
    [gtask0] [0] (by decide)).1
  exact ⟨by decide, h1, h2⟩

/-- C4 witness: a one-item JSON batch whose provider call fails with a
plain error records exactly the CreateMultiTaskFailure entry for index 0,
and that entry satisfies the classification. -/
theorem multi_error_classification_witness :
    ([0] : List Nat).Perm (List.range 1) ∧
    (plainErrService.CreateJsonPostTaskMulti sampleQueue [jtask0] []
      [0]).1.2 = some [genMultiErr] ∧
    ∃ i task err, i < ([jtask0] : List JsonPostTask).length ∧
      ([jtask0] : List JsonPostTask)[i]? = some task ∧
      (plainErrService.CreateJsonPostTask sampleQueue task []).1 =
        .error err ∧
      kvLookup genMultiErr.appKV "index" = some (.int i) ∧
      (err.isAlreadyExistsApp = true →
        genMultiErr.appCode = some ErrCode.alreadyExists) ∧
      (err.isAlreadyExistsApp = false →
        genMultiErr.appCode = some ErrCode.createMultiTaskFailure ∧
        kvLookup genMultiErr.appKV "taskName" = some (.str task.Name) ∧
        kvLookup genMultiErr.appKV "URI" = some (.str task.RelativeURI)) := by
  refine ⟨by decide, rfl, ?_⟩
  exact (multi_error_classification plainErrService sampleQueue []).1
    [jtask0] [0] (by decide) [genMultiErr] rfl genMultiErr
    (List.mem_singleton.mpr rfl)

/-- C10 witness: the empty batch returns empty results, nil aggregate and
an empty trace for both variants. -/
theorem multi_empty_input_witness :
    ([] : List Nat).Perm (List.range 0) ∧
    okService.CreateJsonPostTaskMulti sampleQueue [] [] [] = (([], none), []) ∧
    okService.CreateGetTaskMulti sampleQueue [] [] [] = (([], none), []) := by
  have h := multi_empty_input okService sampleQueue [] [] (by decide)
  exact ⟨by decide, h.1, h.2⟩

end Tasksbox
